import Mathlib

/-!
Verification of the `diffmatch` commit-diff auditor (src/diffmatch.py).

Shallow embedding notes:
* Python strings are modelled as Lean `String` / `List Char`; the string
  helpers (`strip`, `splitlines`, `split`, `lower`, regex word search and the
  category patterns) are translated for the ASCII range, which covers every
  character the program's fixed pattern tables mention.
* The version-control gateway (subprocess calls to git) is modelled by passing
  its observable outputs — raw `git log` stdout, the merge flag, the parsed
  diff statistics and rename list — as explicit arguments to `audit_commit`.
* Python float division `added / total` is modelled by exact rational
  division in `ℚ`; the thresholds 0.7 / 0.8 become 7/10 and 4/5.
  Percent formatting `:.0%` is modelled by round-half-to-even on the exact
  rational, matching CPython's decimal formatting of the quotient.
-/

namespace Diffmatch

/-- Python `str.isspace` characters relevant for `strip` / `\s` (ASCII range). -/
def pyIsSpace (c : Char) : Bool :=
  c == ' ' || c == '\t' || c == '\n' || c == '\r' || c == '\x0b' || c == '\x0c'

/-- Line boundary characters of Python `str.splitlines`. -/
def isLineBoundary (c : Char) : Bool :=
  c == '\n' || c == '\r' || c == '\x0b' || c == '\x0c' || c == '\x1c' || c == '\x1d' ||
  c == '\x1e' || c == '\x85' || c == '\u2028' || c == '\u2029'

/-- Python `str.strip()` (whitespace at both ends). -/
def pyStrip (l : List Char) : List Char :=
  ((l.dropWhile pyIsSpace).reverse.dropWhile pyIsSpace).reverse

/-- Worker for `pySplitlines`; `acc` holds the current line reversed. -/
def splitlinesAux : List Char → List Char → List (List Char)
  | [], acc => if acc.isEmpty then [] else [acc.reverse]
  | '\r' :: '\n' :: rest, acc => acc.reverse :: splitlinesAux rest []
  | c :: rest, acc =>
    if isLineBoundary c then acc.reverse :: splitlinesAux rest []
    else splitlinesAux rest (c :: acc)

/-- Python `str.splitlines()`. -/
def pySplitlines (l : List Char) : List (List Char) := splitlinesAux l []

/-- Worker for `pySplit`; `acc` holds the current token reversed. -/
def pySplitAux : List Char → List Char → List (List Char)
  | [], acc => if acc.isEmpty then [] else [acc.reverse]
  | c :: rest, acc =>
    if pyIsSpace c then
      (if acc.isEmpty then pySplitAux rest [] else acc.reverse :: pySplitAux rest [])
    else pySplitAux rest (c :: acc)

/-- Python `str.split()` with no argument: whitespace runs, empties dropped. -/
def pySplit (l : List Char) : List (List Char) := pySplitAux l []

/-- Lowercased character list of a string (Python `str.lower`, ASCII range). -/
def lowerL (s : String) : List Char := s.toList.map Char.toLower

/-- Python `str.lower()` as a `String`. -/
def pyLower (s : String) : String := String.mk (lowerL s)

/-- Python regex `\w` (ASCII range). -/
def isWordChar (c : Char) : Bool := c.isAlphanum || c == '_'

/-- `\b` holds before the match: previous char (if any) is not a word char. -/
def okBoundary : Option Char → Bool
  | none => true
  | some c => !isWordChar c

/-- `\b` holds after the match: next char (if any) is not a word char. -/
def okAfterWord : List Char → Bool
  | [] => true
  | c :: _ => !isWordChar c

/-- Worker for `wordSearch`: tries every position, tracking the previous char. -/
def wordSearchAux (w : List Char) : Option Char → List Char → Bool
  | prev, [] => okBoundary prev && w.isEmpty
  | prev, c :: rest =>
    (okBoundary prev && w.isPrefixOf (c :: rest) && okAfterWord ((c :: rest).drop w.length)) ||
    wordSearchAux w (some c) rest

/-- Python `re.search(r"\b" + w + r"\b", text)` for a plain word `w`. -/
def wordSearch (w text : List Char) : Bool := wordSearchAux w none text

/-- Substring test (`pat in hay` / `re.search` on an escaped literal). -/
def containsSub (pat : List Char) : List Char → Bool
  | [] => pat.isEmpty
  | c :: rest => pat.isPrefixOf (c :: rest) || containsSub pat rest

/-- Suffix test, for regex patterns anchored with `$`. -/
def endsWithL (pat l : List Char) : Bool := pat.reverse.isPrefixOf l.reverse

/-- `ACTION_WORDS` table, keeping the one attribute any check reads:
`max_changed`. The other attributes (`expects_additions`, `min_added`, …)
are never read anywhere in the program, so they are not modelled. -/
def ACTION_WORDS : List (String × Option Nat) :=
  [("add", none), ("create", none), ("remove", none), ("delete", none),
   ("rename", none), ("move", none), ("fix", none), ("update", none),
   ("typo", some 20), ("whitespace", some 50), ("comment", some 30),
   ("minor", some 30), ("small", some 30), ("tiny", some 15)]

/-- `extract_action_words`: the action words found (whole word,
case-insensitive) in the text, in table order. The source returns the
word→expectations dict; checks only test membership and read `max_changed`
(via `maxChangedOf` below), so the found keys suffice. -/
def extract_action_words (text : String) : List String :=
  (ACTION_WORDS.map Prod.fst).filter (fun w => wordSearch w.toList (text.toList.map Char.toLower))

/-- `actions[word].get("max_changed", 30)`: the found dict copies its values
from `ACTION_WORDS`, so the lookup goes to the table. -/
def maxChangedOf (word : String) : Nat :=
  ((ACTION_WORDS.find? (fun e => e.1 == word)).bind (fun e => e.2)).getD 30

/-- `FILE_CATEGORIES["test"]` patterns, applied to the lowercased path
(`re.IGNORECASE`): `test`, `spec`, `__tests__`, `_test\.`, `\.test\.`, `\.spec\.`. -/
def testMatches (lp : List Char) : Bool :=
  containsSub "test".toList lp || containsSub "spec".toList lp ||
  containsSub "__tests__".toList lp || containsSub "_test.".toList lp ||
  containsSub ".test.".toList lp || containsSub ".spec.".toList lp

/-- `FILE_CATEGORIES["docs"]`: `\.md$`, `\.rst$`, `\.txt$`, `README`,
`CHANGELOG`, `LICENSE`, `docs/`. -/
def docsMatches (lp : List Char) : Bool :=
  endsWithL ".md".toList lp || endsWithL ".rst".toList lp || endsWithL ".txt".toList lp ||
  containsSub "readme".toList lp || containsSub "changelog".toList lp ||
  containsSub "license".toList lp || containsSub "docs/".toList lp

/-- `FILE_CATEGORIES["config"]`: `\.json$`, `\.ya?ml$`, `\.toml$`, `\.ini$`,
`\.cfg$`, `\.env`, `\.config`. -/
def configMatches (lp : List Char) : Bool :=
  endsWithL ".json".toList lp || endsWithL ".yml".toList lp || endsWithL ".yaml".toList lp ||
  endsWithL ".toml".toList lp || endsWithL ".ini".toList lp || endsWithL ".cfg".toList lp ||
  containsSub ".env".toList lp || containsSub ".config".toList lp

/-- `FILE_CATEGORIES["ci"]`: `\.github/`, `\.gitlab-ci`, `Jenkinsfile`,
`\.circleci`, `\.travis`. -/
def ciMatches (lp : List Char) : Bool :=
  containsSub ".github/".toList lp || containsSub ".gitlab-ci".toList lp ||
  containsSub "jenkinsfile".toList lp || containsSub ".circleci".toList lp ||
  containsSub ".travis".toList lp

/-- `FILE_CATEGORIES["style"]`: `\.css$`, `\.scss$`, `\.less$`, `\.styled\.`,
`styles?/`. -/
def styleMatches (lp : List Char) : Bool :=
  endsWithL ".css".toList lp || endsWithL ".scss".toList lp || endsWithL ".less".toList lp ||
  containsSub ".styled.".toList lp || containsSub "style/".toList lp ||
  containsSub "styles/".toList lp

/-- `FILE_CATEGORIES["build"]`: `Makefile`, `Dockerfile`, `docker-compose`,
`package\.json$`, `Cargo\.toml$`. -/
def buildMatches (lp : List Char) : Bool :=
  containsSub "makefile".toList lp || containsSub "dockerfile".toList lp ||
  containsSub "docker-compose".toList lp || endsWithL "package.json".toList lp ||
  endsWithL "cargo.toml".toList lp

/-- `FILE_CATEGORIES` in its dict (priority) order. -/
def FILE_CATEGORIES : List (String × (List Char → Bool)) :=
  [("test", testMatches), ("docs", docsMatches), ("config", configMatches),
   ("ci", ciMatches), ("style", styleMatches), ("build", buildMatches)]

/-- The category claiming one path: first (priority-ordered) category whose
pattern set matches, else `"code"` — the per-path core of `categorize_files`. -/
def categorizeFile (fp : String) : String :=
  match FILE_CATEGORIES.find? (fun e => e.2 (lowerL fp)) with
  | some e => e.1
  | none => "code"

/-- `categories.setdefault(category, []).append(fp)` on an insertion-ordered
dict modelled as an association list. -/
def dictAppend (d : List (String × List String)) (k v : String) : List (String × List String) :=
  match d with
  | [] => [(k, [v])]
  | e :: rest => if e.1 == k then (e.1, e.2 ++ [v]) :: rest else e :: dictAppend rest k v

/-- `categorize_files`: group the paths by their category, preserving the
dict's insertion order of categories and the path order inside each. -/
def categorize_files (fps : List String) : List (String × List String) :=
  fps.foldl (fun d fp => dictAppend d (categorizeFile fp) fp) []

/-- Dict lookup (`d.get(k)` / `k in d`). -/
def lookupCat (d : List (String × List String)) (k : String) : Option (List String) :=
  (d.find? (fun e => e.1 == k)).map (fun e => e.2)

/-- `d.get(k, [])`. -/
def catValues (d : List (String × List String)) (k : String) : List String :=
  (lookupCat d k).getD []

/-- `[f for cat, files in d.items() if cat != k for f in files]`. -/
def nonCatFiles (d : List (String × List String)) (k : String) : List String :=
  ((d.filter (fun e => !(e.1 == k))).map (fun e => e.2)).flatten

/-- Severity constant `PASS`. -/
def PASS : String := "pass"

/-- Severity constant `WARN`. -/
def WARN : String := "warn"

/-- Severity constant `FAIL`. -/
def FAIL : String := "fail"

/-- The record returned by `parse_commit_message`. -/
structure ParsedMsg where
  subject : String
  body : String
  type : Option String
  scope : Option String
  breaking : Bool
  description : String
  is_conventional : Bool
deriving DecidableEq, Repr

/-- One entry of `diff_stats["files"]`. -/
structure FileChange where
  path : String
  added : Nat
  deleted : Nat
  binary : Bool
deriving DecidableEq, Repr

/-- The dict returned by `get_diff_stats`. -/
structure DiffStats where
  files : List FileChange
  total_added : Nat
  total_deleted : Nat
deriving DecidableEq, Repr

/-- One entry of `get_diff_renames`. -/
structure Rename where
  fromPath : String
  toPath : String
deriving DecidableEq, Repr

/-- One finding dict. -/
structure Finding where
  severity : String
  check : String
  message : String
deriving DecidableEq, Repr

/-- The optional `(\((?P<scope>[^)]+)\))?` group of `CONVENTIONAL_RE`.
If the text starts with `(` but the group cannot complete, the regex as a
whole fails (after skipping the optional group, `(` can match neither `!?`
nor `:`), hence `none`. -/
def matchScope : List Char → Option (Option (List Char) × List Char)
  | '(' :: rest =>
    (let inner := rest.takeWhile (fun c => !(c == ')'))
     if inner.isEmpty then none
     else
       match rest.drop inner.length with
       | ')' :: rest2 => some (some inner, rest2)
       | _ => none)
  | rest => some (none, rest)

/-- The optional `(?P<breaking>!)?` marker. -/
def matchBang : List Char → Bool × List Char
  | '!' :: rest => (true, rest)
  | rest => (false, rest)

/-- `\s*(?P<description>.+)$` after the colon: greedy whitespace skip, but
the regex backtracks to leave one character for `.+` when everything after
the colon is whitespace. `none` when nothing follows the colon. -/
def matchDesc (rest : List Char) : Option (List Char) :=
  if rest.isEmpty then none
  else
    (let rem := rest.dropWhile pyIsSpace
     if rem.isEmpty then some (rest.drop (rest.length - 1)) else some rem)

/-- `CONVENTIONAL_RE.match(subject)` (anchored at the start). `[a-z]+` with
`re.IGNORECASE` is ASCII letters of either case; no backtracking into the
type token can help because a letter never matches `(`, `!` or `:`. -/
def conventionalMatchL (l : List Char) :
    Option (List Char × Option (List Char) × Bool × List Char) :=
  let ty := l.takeWhile Char.isAlpha
  if ty.isEmpty then none
  else
    match matchScope (l.dropWhile Char.isAlpha) with
    | none => none
    | some (sc, rest2) =>
      match (matchBang rest2).2 with
      | [] => none
      | c :: rest4 =>
        if c = ':' then
          (match matchDesc rest4 with
           | some d => some (ty, sc, (matchBang rest2).1, d)
           | none => none)
        else none

/-- `CONVENTIONAL_RE.match` returning `(type, scope, breaking, description)`
group values (type not yet lowercased, as in the source). -/
def conventionalMatch (s : String) : Option (String × Option String × Bool × String) :=
  match conventionalMatchL s.toList with
  | some (ty, sc, bang, d) => some (String.mk ty, sc.map String.mk, bang, String.mk d)
  | none => none

/-- `lines[0] if lines else ""` over `message.strip().splitlines()`. -/
def subjectOfMessage (message : String) : String :=
  String.mk ((pySplitlines (pyStrip message.toList)).headD [])

/-- `"\n".join(lines[2:]) if len(lines) > 2 else ""`. -/
def bodyOfMessage (message : String) : String :=
  let lines := pySplitlines (pyStrip message.toList)
  if lines.length > 2 then String.intercalate "\n" ((lines.drop 2).map String.mk) else ""

/-- `parse_commit_message`. -/
def parse_commit_message (message : String) : ParsedMsg :=
  match conventionalMatch (subjectOfMessage message) with
  | some (ty, sc, bang, d) =>
    { subject := subjectOfMessage message, body := bodyOfMessage message,
      type := some (pyLower ty), scope := sc, breaking := bang,
      description := d, is_conventional := true }
  | none =>
    { subject := subjectOfMessage message, body := bodyOfMessage message,
      type := none, scope := none, breaking := false,
      description := subjectOfMessage message, is_conventional := false }

/-- `add_ratio` in the source: `added / total` as an exact rational (0 when
the total is 0; the source only evaluates it behind a `total > 0` guard). -/
def add_fraction (ds : DiffStats) : ℚ :=
  (ds.total_added : ℚ) / ((ds.total_added + ds.total_deleted : Nat) : ℚ)

/-- `del_ratio` in the source: `deleted / total` as an exact rational. -/
def del_fraction (ds : DiffStats) : ℚ :=
  (ds.total_deleted : ℚ) / ((ds.total_added + ds.total_deleted : Nat) : ℚ)

/-- Round half to even, as CPython's string formatting does. -/
def roundHalfEven (q : ℚ) : ℤ :=
  let n := q.floor
  let frac := q - (n : ℚ)
  if frac < 1/2 then n
  else if 1/2 < frac then n + 1
  else if n % 2 = 0 then n else n + 1

/-- Python `f"{q:.0%}"`. -/
def formatPct (q : ℚ) : String := toString (roundHalfEven (q * 100)) ++ "%"

/-- Small-word finding of `check_size_mismatch`. -/
def sizeSmallFinding (word : String) (total_changed num_files max_changed : Nat) : Finding :=
  { severity := WARN, check := "size_mismatch",
    message := "Message says \"" ++ word ++ "\" but diff is " ++ toString total_changed ++
      " lines across " ++ toString num_files ++ " file(s). Expected <" ++
      toString max_changed ++ " lines." }

/-- Large-diff/terse-message finding of `check_size_mismatch`. -/
def sizeLargeFinding (total_changed num_files : Nat) (subject : String) : Finding :=
  { severity := WARN, check := "size_mismatch",
    message := "Large diff (" ++ toString total_changed ++ " lines, " ++ toString num_files ++
      " files) with very short commit message: \"" ++ subject ++ "\"" }

/-- "says add/create but mostly deletions" finding. -/
def dirWordDelFinding (word : String) (added deleted : Nat) (r : ℚ) : Finding :=
  { severity := WARN, check := "direction_mismatch",
    message := "Message says \"" ++ word ++ "\" but diff is " ++ formatPct r ++
      " deletions (+" ++ toString added ++ "/-" ++ toString deleted ++
      "). More was removed than added." }

/-- "says remove/delete but mostly additions" finding. -/
def dirWordAddFinding (word : String) (added deleted : Nat) (r : ℚ) : Finding :=
  { severity := WARN, check := "direction_mismatch",
    message := "Message says \"" ++ word ++ "\" but diff is " ++ formatPct r ++
      " additions (+" ++ toString added ++ "/-" ++ toString deleted ++
      "). More was added than removed." }

/-- "feat but mostly deletions" finding. -/
def dirFeatFinding (added deleted : Nat) (r : ℚ) : Finding :=
  { severity := WARN, check := "direction_mismatch",
    message := "Commit type is \"feat\" but diff is " ++ formatPct r ++
      " deletions (+" ++ toString added ++ "/-" ++ toString deleted ++
      "). Features usually add code." }

/-- "revert but mostly additions" finding. -/
def dirRevertFinding (added deleted : Nat) (r : ℚ) : Finding :=
  { severity := WARN, check := "direction_mismatch",
    message := "Commit type is \"revert\" but diff is " ++ formatPct r ++
      " additions (+" ++ toString added ++ "/-" ++ toString deleted ++
      "). Reverts usually remove code." }

/-- Scope-not-in-paths finding. -/
def scopeFinding (scopeOrig : String) (num_files : Nat) (scopeLower : String) : Finding :=
  { severity := WARN, check := "scope_mismatch",
    message := "Commit scope is \"" ++ scopeOrig ++ "\" but none of the " ++
      toString num_files ++ " changed file(s) contain \"" ++ scopeLower ++ "\" in their path." }

/-- docs-type-but-non-doc-files finding. -/
def docsFinding (non_doc_files : List String) : Finding :=
  { severity := WARN, check := "scope_mismatch",
    message := "Commit type is \"docs\" but changed files include non-documentation: " ++
      String.intercalate ", " (non_doc_files.take 3) ++
      (if non_doc_files.length > 3 then "..." else "") }

/-- test-type-but-no-test-files finding. -/
def testTypeFinding (non_test : List String) : Finding :=
  { severity := WARN, check := "scope_mismatch",
    message := "Commit type is \"test\" but no test files were changed. Changed: " ++
      String.intercalate ", " (non_test.take 3) ++
      (if non_test.length > 3 then "..." else "") }

/-- README-but-many-files finding. -/
def readmeFinding (num_files : Nat) : Finding :=
  { severity := WARN, check := "scope_mismatch",
    message := "Message mentions README but " ++ toString num_files ++
      " files were changed, not just README." }

/-- "says rename/move but no renames" finding. -/
def renameMissingFinding : Finding :=
  { severity := WARN, check := "rename_mismatch",
    message := "Message implies renaming/moving but git detected no renames in this diff." }

/-- "renames not mentioned" finding, listing up to 3 pairs, eliding with
`...` when more than 3 renames exist. -/
def renameUnmentionedFinding (renames : List Rename) : Finding :=
  { severity := WARN, check := "rename_mismatch",
    message := "Diff contains " ++ toString renames.length ++
      " rename(s) not mentioned in commit message: " ++
      String.intercalate "; " ((renames.take 3).map (fun r => r.fromPath ++ " → " ++ r.toPath)) ++
      (if renames.length > 3 then "..." else "") }

/-- Empty-diff finding. -/
def emptyDiffFinding : Finding :=
  { severity := WARN, check := "empty_diff",
    message := "Commit has no file changes (empty diff)." }

/-- The six small-change words, in the source's tuple order. -/
def smallSizeWords : List String := ["typo", "minor", "small", "tiny", "whitespace", "comment"]

/-- Small-word loop of `check_size_mismatch`. -/
def sizeSmallPart (p : ParsedMsg) (ds : DiffStats) : List Finding :=
  smallSizeWords.foldl (fun acc word =>
    acc ++ (if (extract_action_words p.description).contains word ∧
               ds.total_added + ds.total_deleted > maxChangedOf word
            then [sizeSmallFinding word (ds.total_added + ds.total_deleted)
                    ds.files.length (maxChangedOf word)]
            else [])) []

/-- Large-diff rule of `check_size_mismatch`. -/
def sizeLargePart (p : ParsedMsg) (ds : DiffStats) : List Finding :=
  if ds.total_added + ds.total_deleted > 200 ∧ (pySplit p.description.toList).length < 4
  then [sizeLargeFinding (ds.total_added + ds.total_deleted) ds.files.length p.subject]
  else []

/-- `check_size_mismatch`. -/
def check_size_mismatch (p : ParsedMsg) (ds : DiffStats) : List Finding :=
  sizeSmallPart p ds ++ sizeLargePart p ds

/-- "add"/"create" loop of `check_direction_mismatch`. -/
def dirSaysAddPart (p : ParsedMsg) (ds : DiffStats) : List Finding :=
  (["add", "create"] : List String).foldl (fun acc word =>
    acc ++ (if (extract_action_words p.description).contains word ∧
               del_fraction ds > 7/10 ∧ ds.total_deleted > 10
            then [dirWordDelFinding word ds.total_added ds.total_deleted (del_fraction ds)]
            else [])) []

/-- "remove"/"delete" loop of `check_direction_mismatch`. -/
def dirSaysRemovePart (p : ParsedMsg) (ds : DiffStats) : List Finding :=
  (["remove", "delete"] : List String).foldl (fun acc word =>
    acc ++ (if (extract_action_words p.description).contains word ∧
               add_fraction ds > 7/10 ∧ ds.total_added > 10
            then [dirWordAddFinding word ds.total_added ds.total_deleted (add_fraction ds)]
            else [])) []

/-- "feat" sub-rule of `check_direction_mismatch`. -/
def dirFeatPart (p : ParsedMsg) (ds : DiffStats) : List Finding :=
  if p.type = some "feat" ∧ ds.total_added + ds.total_deleted > 10 ∧ del_fraction ds > 4/5
  then [dirFeatFinding ds.total_added ds.total_deleted (del_fraction ds)]
  else []

/-- "revert" sub-rule of `check_direction_mismatch`. -/
def dirRevertPart (p : ParsedMsg) (ds : DiffStats) : List Finding :=
  if p.type = some "revert" ∧ ds.total_added + ds.total_deleted > 10 ∧ add_fraction ds > 4/5
  then [dirRevertFinding ds.total_added ds.total_deleted (add_fraction ds)]
  else []

/-- `check_direction_mismatch`: early return on an empty diff total, then the
four independent sub-rules in source order. -/
def check_direction_mismatch (p : ParsedMsg) (ds : DiffStats) : List Finding :=
  if ds.total_added + ds.total_deleted = 0 then []
  else dirSaysAddPart p ds ++ dirSaysRemovePart p ds ++ dirFeatPart p ds ++ dirRevertPart p ds

/-- Scope-vs-paths branch of `check_scope_mismatch`. The source guard
`if msg_parsed.get("scope"):` is falsy for both a missing and an empty scope. -/
def scopeBranch (p : ParsedMsg) (ds : DiffStats) : List Finding :=
  match p.scope with
  | none => []
  | some sc =>
    if sc = "" then []
    else
      (let filepaths := ds.files.map (fun f => f.path)
       if !(filepaths.any (fun fp => containsSub (lowerL sc) (lowerL fp))) ∧ filepaths.length > 0
       then [scopeFinding sc filepaths.length (pyLower sc)]
       else [])

/-- docs-type branch of `check_scope_mismatch`: fires only when the category
dict has no "docs" key at all. -/
def docsBranch (p : ParsedMsg) (ds : DiffStats) : List Finding :=
  let file_categories := categorize_files (ds.files.map (fun f => f.path))
  if p.type = some "docs" ∧ lookupCat file_categories "docs" = none then
    (let non_doc_files := nonCatFiles file_categories "docs"
     if non_doc_files ≠ [] then [docsFinding non_doc_files] else [])
  else []

/-- test-type branch of `check_scope_mismatch`. -/
def testBranch (p : ParsedMsg) (ds : DiffStats) : List Finding :=
  let file_categories := categorize_files (ds.files.map (fun f => f.path))
  if p.type = some "test" then
    (let test_files := catValues file_categories "test"
     let non_test := nonCatFiles file_categories "test"
     if test_files = [] ∧ non_test ≠ [] then [testTypeFinding non_test] else [])
  else []

/-- README branch of `check_scope_mismatch`. -/
def readmeBranch (p : ParsedMsg) (ds : DiffStats) : List Finding :=
  let filepaths := ds.files.map (fun f => f.path)
  if containsSub "readme".toList (lowerL p.description) ∧ filepaths.length > 3 then
    (let readme_files := filepaths.filter (fun f => containsSub "readme".toList (lowerL f))
     if readme_files.length < filepaths.length then [readmeFinding filepaths.length] else [])
  else []

/-- `check_scope_mismatch`. -/
def check_scope_mismatch (p : ParsedMsg) (ds : DiffStats) : List Finding :=
  scopeBranch p ds ++ docsBranch p ds ++ testBranch p ds ++ readmeBranch p ds

/-- First branch of `check_rename_mismatch`: rename/move word, no renames. -/
def renameMissingPart (p : ParsedMsg) (renames : List Rename) : List Finding :=
  if ((extract_action_words p.description).contains "rename" ∨
      (extract_action_words p.description).contains "move") ∧ renames = []
  then [renameMissingFinding]
  else []

/-- Second branch of `check_rename_mismatch`: renames present, no word. -/
def renameUnmentionedPart (p : ParsedMsg) (renames : List Rename) : List Finding :=
  if renames ≠ [] ∧ ¬((extract_action_words p.description).contains "rename" = true) ∧
     ¬((extract_action_words p.description).contains "move" = true)
  then [renameUnmentionedFinding renames]
  else []

/-- `check_rename_mismatch` (its `diff_stats` parameter is unused, as in the
source). -/
def check_rename_mismatch (p : ParsedMsg) (ds : DiffStats) (renames : List Rename) :
    List Finding :=
  renameMissingPart p renames ++ renameUnmentionedPart p renames

/-- `check_empty_diff`. -/
def check_empty_diff (p : ParsedMsg) (ds : DiffStats) : List Finding :=
  if ds.files = [] then [emptyDiffFinding] else []

/-- The diff summary dict inside an audit result. -/
structure DiffSummary where
  files : Nat
  added : Nat
  deleted : Nat
  total : Nat
  renames : Nat
  categories : List (String × Nat)
deriving DecidableEq, Repr

/-- A successful audit result dict. -/
structure AuditResult where
  ref : String
  subject : String
  type : Option String
  scope : Option String
  is_conventional : Bool
  diff : DiffSummary
  findings : List Finding
  verdict : String
deriving DecidableEq, Repr

/-- The three-way outcome of `audit_commit` (error / skipped / result dicts). -/
inductive AuditOutcome where
  | error (ref msg : String)
  | skipped (ref : String) (subject : Option String) (reason : String)
  | result (r : AuditResult)
deriving DecidableEq, Repr

/-- `get_commit_message`: `out.strip() if out else None` over the raw
`git log -1 --format=%B` stdout (`none` models a failed git call). -/
def get_commit_message (gitOut : Option String) : Option String :=
  match gitOut with
  | some out => if out = "" then none else some (String.mk (pyStrip out.toList))
  | none => none

/-- `get_commit_subject`, same shape over `--format=%s` output. -/
def get_commit_subject (gitOut : Option String) : Option String :=
  match gitOut with
  | some out => if out = "" then none else some (String.mk (pyStrip out.toList))
  | none => none

/-- `audit_commit`, with each gateway observation passed explicitly: the raw
`%B` stdout, the raw `%s` stdout, the merge flag, the parsed diff stats and
the rename list. `if not message:` is true for both `None` and `""`. -/
def audit_commit (ref : String) (gitMsgOut gitSubjectOut : Option String) (isMerge : Bool)
    (ds : DiffStats) (renames : List Rename) : AuditOutcome :=
  match get_commit_message gitMsgOut with
  | none => .error ref "Could not read commit message"
  | some message =>
    if message = "" then .error ref "Could not read commit message"
    else if isMerge then .skipped ref (get_commit_subject gitSubjectOut) "merge commit"
    else
      (let p := parse_commit_message message
       let findings := check_size_mismatch p ds ++ check_direction_mismatch p ds ++
         check_scope_mismatch p ds ++ check_rename_mismatch p ds renames ++
         check_empty_diff p ds
       let file_categories := categorize_files (ds.files.map (fun f => f.path))
       .result {
         ref := ref, subject := p.subject, type := p.type, scope := p.scope,
         is_conventional := p.is_conventional,
         diff := {
           files := ds.files.length, added := ds.total_added, deleted := ds.total_deleted,
           total := ds.total_added + ds.total_deleted, renames := renames.length,
           categories := file_categories.map (fun e => (e.1, e.2.length)) },
         findings := findings,
         verdict :=
           if findings.any (fun f => f.severity == FAIL) then FAIL
           else if findings ≠ [] then WARN
           else PASS })

/-- Findings carried by an outcome (error and skipped outcomes carry none). -/
def AuditOutcome.findingsOf : AuditOutcome → List Finding
  | .result r => r.findings
  | _ => []

/-- Verdict carried by an outcome, when it is a result. -/
def AuditOutcome.verdictOf : AuditOutcome → Option String
  | .result r => some r.verdict
  | _ => none

/-! ## Helper lemmas -/

theorem String_mk_eq_empty {l : List Char} (h : String.mk l = "") : l = [] :=
  congrArg String.data h

theorem String_mk_ne_empty {l : List Char} (h : l ≠ []) : String.mk l ≠ "" :=
  fun he => h (String_mk_eq_empty he)

theorem matchDesc_ne_nil {rest d : List Char} (h : matchDesc rest = some d) : d ≠ [] := by
  unfold matchDesc at h
  by_cases h0 : rest.isEmpty
  · rw [if_pos h0] at h
    exact absurd h (by simp)
  · rw [if_neg h0] at h
    simp only at h
    by_cases h1 : (rest.dropWhile pyIsSpace).isEmpty
    · rw [if_pos h1] at h
      have hd := (Option.some.inj h).symm
      subst hd
      have hlen : rest.length ≠ 0 := by
        intro hz
        exact h0 (by simpa [List.isEmpty_iff] using List.length_eq_zero.mp hz)
      intro hnil
      have hL := congrArg List.length hnil
      rw [List.length_drop] at hL
      simp at hL
      omega
    · rw [if_neg h1] at h
      have hd := (Option.some.inj h).symm
      subst hd
      simpa [List.isEmpty_iff] using h1

theorem conventionalMatchL_desc_ne {l : List Char}
    {g : List Char × Option (List Char) × Bool × List Char}
    (h : conventionalMatchL l = some g) : g.2.2.2 ≠ [] := by
  unfold conventionalMatchL at h
  dsimp only at h
  split at h
  · exact absurd h (by simp)
  · split at h
    · exact absurd h (by simp)
    · split at h
      · exact absurd h (by simp)
      · split at h
        · split at h
          · rename_i d hd
            have hg := (Option.some.inj h).symm
            subst hg
            exact matchDesc_ne_nil hd
          · exact absurd h (by simp)
        · exact absurd h (by simp)

theorem conventionalMatch_desc_ne {s : String}
    {g : String × Option String × Bool × String}
    (h : conventionalMatch s = some g) : g.2.2.2 ≠ "" := by
  unfold conventionalMatch at h
  cases hl : conventionalMatchL s.toList with
  | none => rw [hl] at h; exact absurd h (by simp)
  | some g0 =>
    obtain ⟨ty, sc, bang, d⟩ := g0
    rw [hl] at h
    have hg := (Option.some.inj h).symm
    subst hg
    exact String_mk_ne_empty (conventionalMatchL_desc_ne hl)

/-! ## Claim theorems: parser (C7), rename check (C4), blank message (C10) -/

/-- Claim C7: the commit-message parser is total (it is a plain function
returning a `ParsedMsg` record, with `is_conventional = false` exactly when
the conventional pattern does not match the subject from its start), and the
description is the post-colon text on a conventional match, the full subject
otherwise; consequently the description is never empty when the subject is
non-empty. -/
theorem parse_commit_message_spec (msg : String) :
    (parse_commit_message msg).is_conventional =
        (conventionalMatch (parse_commit_message msg).subject).isSome ∧
    (parse_commit_message msg).description =
        (match conventionalMatch (parse_commit_message msg).subject with
         | some g => g.2.2.2
         | none => (parse_commit_message msg).subject) ∧
    ((parse_commit_message msg).subject ≠ "" → (parse_commit_message msg).description ≠ "") := by
  cases hc : conventionalMatch (subjectOfMessage msg) with
  | none =>
    refine ⟨?_, ?_, ?_⟩
    · simp [parse_commit_message, hc]
    · simp [parse_commit_message, hc]
    · intro hs
      simpa [parse_commit_message, hc] using hs
  | some g =>
    obtain ⟨ty, sc, bang, d⟩ := g
    have hd : d ≠ "" := by
      have := conventionalMatch_desc_ne hc
      simpa using this
    refine ⟨?_, ?_, ?_⟩
    · simp [parse_commit_message, hc]
    · simp [parse_commit_message, hc]
    · intro _
      simpa [parse_commit_message, hc] using hd

/-- Witness for C7 at the concrete message `"feat(ui)!: add button"`. -/
theorem parse_commit_message_spec_witness :
    (parse_commit_message "feat(ui)!: add button").subject ≠ "" ∧
    (parse_commit_message "feat(ui)!: add button").description ≠ "" :=
  ⟨by decide, (parse_commit_message_spec "feat(ui)!: add button").2.2 (by decide)⟩

/-- Claim C4 counterexample: with exactly 3 renames and a description
containing neither "rename" nor "move", the emitted warn lists all 3 pairs
and does NOT append the elision marker "..." (the code elides only when
`len(renames) > 3`), contradicting the claim that "..." is appended even
when exactly 3 renames exist. -/
theorem rename_elision_counterexample :
    check_rename_mismatch (parse_commit_message "update helpers") ⟨[], 0, 0⟩
        [⟨"old/a.go", "new/a.go"⟩, ⟨"old/b.go", "new/b.go"⟩, ⟨"old/c.go", "new/c.go"⟩] =
      [renameUnmentionedFinding
        [⟨"old/a.go", "new/a.go"⟩, ⟨"old/b.go", "new/b.go"⟩, ⟨"old/c.go", "new/c.go"⟩]] ∧
    (renameUnmentionedFinding
        [⟨"old/a.go", "new/a.go"⟩, ⟨"old/b.go", "new/b.go"⟩, ⟨"old/c.go", "new/c.go"⟩]).message =
      "Diff contains 3 rename(s) not mentioned in commit message: old/a.go → new/a.go; old/b.go → new/b.go; old/c.go → new/c.go" ∧
    containsSub "...".toList
      (renameUnmentionedFinding
        [⟨"old/a.go", "new/a.go"⟩, ⟨"old/b.go", "new/b.go"⟩, ⟨"old/c.go", "new/c.go"⟩]).message.toList = false :=
  ⟨by decide, by decide, by decide⟩

/-- Claim C4 (amended): for every non-empty rename sequence whose paired
description contains neither "rename" nor "move" as a whole word, the check
emits exactly one warn listing up to 3 `from → to` pairs, with the elision
marker "..." appended only when MORE than 3 renames exist (not when exactly
3 exist). -/
theorem rename_unmentioned_amended (p : ParsedMsg) (ds : DiffStats) (renames : List Rename)
    (h1 : renames ≠ [])
    (h2 : (extract_action_words p.description).contains "rename" = false)
    (h3 : (extract_action_words p.description).contains "move" = false) :
    check_rename_mismatch p ds renames = [renameUnmentionedFinding renames] ∧
    (renameUnmentionedFinding renames).message =
      "Diff contains " ++ toString renames.length ++
        " rename(s) not mentioned in commit message: " ++
        String.intercalate "; " ((renames.take 3).map (fun r => r.fromPath ++ " → " ++ r.toPath)) ++
        (if renames.length > 3 then "..." else "") := by
  constructor
  · have hA : ¬((((extract_action_words p.description).contains "rename" = true) ∨
        ((extract_action_words p.description).contains "move" = true)) ∧ renames = []) := by
      rintro ⟨_, hnil⟩
      exact h1 hnil
    have hB : renames ≠ [] ∧
        ¬((extract_action_words p.description).contains "rename" = true) ∧
        ¬((extract_action_words p.description).contains "move" = true) :=
      ⟨h1, by rw [h2]; simp, by rw [h3]; simp⟩
    unfold check_rename_mismatch renameMissingPart renameUnmentionedPart
    rw [if_neg hA, if_pos hB]
    simp
  · rfl

/-- Witness for amended C4 at 4 concrete renames: the single warn fires. -/
theorem rename_unmentioned_amended_witness :
    ([⟨"a.txt", "b.txt"⟩, ⟨"c.txt", "d.txt"⟩, ⟨"e.txt", "f.txt"⟩, ⟨"g.txt", "h.txt"⟩] :
        List Rename) ≠ [] ∧
    check_rename_mismatch (parse_commit_message "update helpers") ⟨[], 0, 0⟩
        [⟨"a.txt", "b.txt"⟩, ⟨"c.txt", "d.txt"⟩, ⟨"e.txt", "f.txt"⟩, ⟨"g.txt", "h.txt"⟩] =
      [renameUnmentionedFinding
        [⟨"a.txt", "b.txt"⟩, ⟨"c.txt", "d.txt"⟩, ⟨"e.txt", "f.txt"⟩, ⟨"g.txt", "h.txt"⟩]] :=
  ⟨by decide,
   (rename_unmentioned_amended (parse_commit_message "update helpers") ⟨[], 0, 0⟩
     [⟨"a.txt", "b.txt"⟩, ⟨"c.txt", "d.txt"⟩, ⟨"e.txt", "f.txt"⟩, ⟨"g.txt", "h.txt"⟩]
     (by decide) (by decide) (by decide)).1⟩

/-- Claim C10: whenever the stripped gateway output for the commit message is
empty — a failed git call (`none`), empty stdout, or whitespace-only stdout —
`audit_commit` returns the gateway-error outcome with message "Could not read
commit message"; the error outcome carries no findings, so the commit is
never parsed and no check runs. -/
theorem audit_commit_blank_message_error (ref : String) (mOut sOut : Option String)
    (isMerge : Bool) (ds : DiffStats) (renames : List Rename)
    (h : pyStrip ((mOut.getD "").toList) = []) :
    audit_commit ref mOut sOut isMerge ds renames =
      AuditOutcome.error ref "Could not read commit message" := by
  cases mOut with
  | none => rfl
  | some s =>
    by_cases hs : s = ""
    · subst hs; rfl
    · have h' : pyStrip s.toList = [] := by simpa using h
      have hm : String.mk (pyStrip s.toList) = "" := by rw [h']
      unfold audit_commit get_commit_message
      dsimp only
      rw [if_neg hs]
      dsimp only
      rw [if_pos hm]

/-- Witness for C10: whitespace-only git stdout yields the error outcome. -/
theorem audit_commit_blank_message_error_witness :
    pyStrip (((some "  \n").getD "").toList) = [] ∧
    audit_commit "HEAD" (some "  \n") none false ⟨[], 0, 0⟩ [] =
      AuditOutcome.error "HEAD" "Could not read commit message" :=
  ⟨by decide,
   audit_commit_blank_message_error "HEAD" (some "  \n") none false ⟨[], 0, 0⟩ [] (by decide)⟩

/-! ## Claim theorems: size check (C5), direction check (C6, C9), verdict (C1) -/

theorem maxChangedOf_typo : maxChangedOf "typo" = 20 := by decide

theorem maxChangedOf_minor : maxChangedOf "minor" = 30 := by decide

theorem maxChangedOf_small : maxChangedOf "small" = 30 := by decide

theorem maxChangedOf_tiny : maxChangedOf "tiny" = 15 := by decide

theorem maxChangedOf_whitespace : maxChangedOf "whitespace" = 50 := by decide

theorem maxChangedOf_comment : maxChangedOf "comment" = 30 := by decide

/-- Claim C5: the size-mismatch check warns for each small-change word —
typo (threshold 20), minor (30), small (30), tiny (15), whitespace (50),
comment (30) — present as a whole word in the description whenever
`totalAdded+totalDeleted` exceeds that word's threshold, and independently
warns "large diff, terse message" when the total exceeds 200 and the
description has fewer than 4 whitespace-separated tokens; the two rules are
concatenated, so both can fire on the same commit. -/
theorem check_size_mismatch_spec (p : ParsedMsg) (ds : DiffStats) :
    check_size_mismatch p ds =
      (if (extract_action_words p.description).contains "typo" ∧
          ds.total_added + ds.total_deleted > 20
       then [sizeSmallFinding "typo" (ds.total_added + ds.total_deleted) ds.files.length 20]
       else []) ++
      (if (extract_action_words p.description).contains "minor" ∧
          ds.total_added + ds.total_deleted > 30
       then [sizeSmallFinding "minor" (ds.total_added + ds.total_deleted) ds.files.length 30]
       else []) ++
      (if (extract_action_words p.description).contains "small" ∧
          ds.total_added + ds.total_deleted > 30
       then [sizeSmallFinding "small" (ds.total_added + ds.total_deleted) ds.files.length 30]
       else []) ++
      (if (extract_action_words p.description).contains "tiny" ∧
          ds.total_added + ds.total_deleted > 15
       then [sizeSmallFinding "tiny" (ds.total_added + ds.total_deleted) ds.files.length 15]
       else []) ++
      (if (extract_action_words p.description).contains "whitespace" ∧
          ds.total_added + ds.total_deleted > 50
       then [sizeSmallFinding "whitespace" (ds.total_added + ds.total_deleted) ds.files.length 50]
       else []) ++
      (if (extract_action_words p.description).contains "comment" ∧
          ds.total_added + ds.total_deleted > 30
       then [sizeSmallFinding "comment" (ds.total_added + ds.total_deleted) ds.files.length 30]
       else []) ++
      (if ds.total_added + ds.total_deleted > 200 ∧ (pySplit p.description.toList).length < 4
       then [sizeLargeFinding (ds.total_added + ds.total_deleted) ds.files.length p.subject]
       else []) := by
  unfold check_size_mismatch sizeSmallPart sizeLargePart smallSizeWords
  simp only [List.foldl_cons, List.foldl_nil, List.nil_append, maxChangedOf_typo,
    maxChangedOf_minor, maxChangedOf_small, maxChangedOf_tiny, maxChangedOf_whitespace,
    maxChangedOf_comment, List.append_assoc]

/-- Claim C6: the direction-mismatch check emits nothing when the total is 0,
and otherwise concatenates four independent sub-rules: "add"/"create" present
with `delRatio > 7/10` and `totalDeleted > 10`; "remove"/"delete" present with
`addRatio > 7/10` and `totalAdded > 10`; conventional type "feat" with total
`> 10` and `delRatio > 4/5`; conventional type "revert" with total `> 10` and
`addRatio > 4/5`. Ratios are the exact rationals modelling Python's float
division. -/
theorem check_direction_mismatch_spec (p : ParsedMsg) (ds : DiffStats) :
    check_direction_mismatch p ds =
      (if ds.total_added + ds.total_deleted = 0 then []
       else
        (if (extract_action_words p.description).contains "add" ∧
            del_fraction ds > 7/10 ∧ ds.total_deleted > 10
         then [dirWordDelFinding "add" ds.total_added ds.total_deleted (del_fraction ds)]
         else []) ++
        (if (extract_action_words p.description).contains "create" ∧
            del_fraction ds > 7/10 ∧ ds.total_deleted > 10
         then [dirWordDelFinding "create" ds.total_added ds.total_deleted (del_fraction ds)]
         else []) ++
        (if (extract_action_words p.description).contains "remove" ∧
            add_fraction ds > 7/10 ∧ ds.total_added > 10
         then [dirWordAddFinding "remove" ds.total_added ds.total_deleted (add_fraction ds)]
         else []) ++
        (if (extract_action_words p.description).contains "delete" ∧
            add_fraction ds > 7/10 ∧ ds.total_added > 10
         then [dirWordAddFinding "delete" ds.total_added ds.total_deleted (add_fraction ds)]
         else []) ++
        (if p.type = some "feat" ∧ ds.total_added + ds.total_deleted > 10 ∧ del_fraction ds > 4/5
         then [dirFeatFinding ds.total_added ds.total_deleted (del_fraction ds)]
         else []) ++
        (if p.type = some "revert" ∧ ds.total_added + ds.total_deleted > 10 ∧ add_fraction ds > 4/5
         then [dirRevertFinding ds.total_added ds.total_deleted (add_fraction ds)]
         else [])) := by
  unfold check_direction_mismatch dirSaysAddPart dirSaysRemovePart dirFeatPart dirRevertPart
  simp only [List.foldl_cons, List.foldl_nil, List.nil_append, List.append_assoc]

theorem dirSaysAddPart_conditions {p : ParsedMsg} {ds : DiffStats}
    (h : dirSaysAddPart p ds ≠ []) : del_fraction ds > 7/10 ∧ ds.total_deleted > 10 := by
  unfold dirSaysAddPart at h
  simp only [List.foldl_cons, List.foldl_nil, List.nil_append] at h
  split at h
  · rename_i h1
    exact ⟨h1.2.1, h1.2.2⟩
  · split at h
    · rename_i h2
      exact ⟨h2.2.1, h2.2.2⟩
    · simp at h

theorem dirSaysRemovePart_conditions {p : ParsedMsg} {ds : DiffStats}
    (h : dirSaysRemovePart p ds ≠ []) : add_fraction ds > 7/10 ∧ ds.total_added > 10 := by
  unfold dirSaysRemovePart at h
  simp only [List.foldl_cons, List.foldl_nil, List.nil_append] at h
  split at h
  · rename_i h1
    exact ⟨h1.2.1, h1.2.2⟩
  · split at h
    · rename_i h2
      exact ⟨h2.2.1, h2.2.2⟩
    · simp at h

theorem ratios_conflict (ds : DiffStats) (h1 : del_fraction ds > 7/10)
    (h2 : add_fraction ds > 7/10) (hd : ds.total_deleted > 10) : False := by
  have hpos : (0 : ℚ) < ((ds.total_added + ds.total_deleted : Nat) : ℚ) := by
    have hn : 0 < ds.total_added + ds.total_deleted := by omega
    exact_mod_cast hn
  have hcast : ((ds.total_added : ℚ) + (ds.total_deleted : ℚ)) =
      ((ds.total_added + ds.total_deleted : Nat) : ℚ) := by
    push_cast
    ring
  have hsum : add_fraction ds + del_fraction ds = 1 := by
    unfold add_fraction del_fraction
    rw [div_add_div_same, hcast, div_self (ne_of_gt hpos)]
  linarith

/-- Claim C9: the direction-mismatch check never emits both a "says
add/create but mostly deletions" finding and a "says remove/delete but mostly
additions" finding in one invocation: their guards require `delRatio > 7/10`
and `addRatio > 7/10` simultaneously, and the two ratios sum to 1. -/
theorem direction_no_conflicting_findings (p : ParsedMsg) (ds : DiffStats) :
    (((check_direction_mismatch p ds).any fun f => decide (f ∈ dirSaysAddPart p ds)) &&
     ((check_direction_mismatch p ds).any fun f => decide (f ∈ dirSaysRemovePart p ds))) =
      false := by
  by_cases ha : dirSaysAddPart p ds = []
  · have h1 : ((check_direction_mismatch p ds).any fun f => decide (f ∈ dirSaysAddPart p ds)) =
        false := by
      rw [ha]
      simp
    rw [h1, Bool.false_and]
  · by_cases hr : dirSaysRemovePart p ds = []
    · have h2 : ((check_direction_mismatch p ds).any
          fun f => decide (f ∈ dirSaysRemovePart p ds)) = false := by
        rw [hr]
        simp
      rw [h2, Bool.and_false]
    · exact (ratios_conflict ds (dirSaysAddPart_conditions ha).1
        (dirSaysRemovePart_conditions hr).1 (dirSaysAddPart_conditions ha).2).elim

/-- Claim C1: for every non-merge commit whose message is readable, the
verdict of the audit result is derived from its finding sequence exactly as:
`fail` if any finding has severity fail, else `warn` if the sequence is
non-empty, else `pass`. -/
theorem audit_commit_verdict_derived (ref : String) (mOut sOut : Option String)
    (ds : DiffStats) (renames : List Rename)
    (h : pyStrip ((mOut.getD "").toList) ≠ []) :
    (audit_commit ref mOut sOut false ds renames).verdictOf =
      some (if (audit_commit ref mOut sOut false ds renames).findingsOf.any
               (fun f => f.severity == FAIL) then FAIL
            else if (audit_commit ref mOut sOut false ds renames).findingsOf ≠ [] then WARN
            else PASS) := by
  cases mOut with
  | none => exact absurd rfl h
  | some s =>
    by_cases hs : s = ""
    · subst hs
      exact absurd rfl h
    · have hm : ¬(String.mk (pyStrip s.toList) = "") := by
        intro he
        exact h (by simpa using String_mk_eq_empty he)
      unfold audit_commit get_commit_message
      dsimp only
      rw [if_neg hs]
      dsimp only
      rw [if_neg hm, if_neg Bool.false_ne_true]
      dsimp only [AuditOutcome.verdictOf, AuditOutcome.findingsOf]

/-- Witness for C1 at a concrete commit (one finding: empty diff → warn). -/
theorem audit_commit_verdict_derived_witness :
    pyStrip (((some "fix: handle nulls").getD "").toList) ≠ [] ∧
    (audit_commit "HEAD" (some "fix: handle nulls") none false ⟨[], 0, 0⟩ []).verdictOf =
      some (if (audit_commit "HEAD" (some "fix: handle nulls") none false
                  ⟨[], 0, 0⟩ []).findingsOf.any (fun f => f.severity == FAIL) then FAIL
            else if (audit_commit "HEAD" (some "fix: handle nulls") none false
                       ⟨[], 0, 0⟩ []).findingsOf ≠ [] then WARN
            else PASS) :=
  ⟨by decide,
   audit_commit_verdict_derived "HEAD" (some "fix: handle nulls") none ⟨[], 0, 0⟩ [] (by decide)⟩

/-! ## Claim theorems: file categorizer (C8) -/

theorem catValues_dictAppend (d : List (String × List String)) (k v k' : String) :
    catValues (dictAppend d k v) k' =
      (if k' = k then catValues d k' ++ [v] else catValues d k') := by
  induction d with
  | nil =>
    by_cases hk : k' = k
    · subst hk
      simp [dictAppend, catValues, lookupCat, List.find?_cons, beq_self_eq_true]
    · have hb : (k == k') = false := by
        rw [beq_eq_false_iff_ne]
        exact fun hx => hk hx.symm
      simp [dictAppend, catValues, lookupCat, List.find?_cons, hb, hk]
  | cons e rest ih =>
    by_cases he : e.1 = k
    · have hb : (e.1 == k) = true := by simp [he]
      by_cases hk : k' = k
      · subst hk
        have hbk : (e.1 == k') = true := hb
        simp [dictAppend, hb, catValues, lookupCat, List.find?_cons, hbk]
      · have hbk : (e.1 == k') = false := by
          rw [beq_eq_false_iff_ne, he]
          exact fun hx => hk hx.symm
        simp [dictAppend, hb, catValues, lookupCat, List.find?_cons, hbk, hk]
    · have hb : (e.1 == k) = false := by
        rw [beq_eq_false_iff_ne]
        exact he
      by_cases hk' : e.1 = k'
      · have hbk : (e.1 == k') = true := by simp [hk']
        have hkk : ¬k' = k := by
          rw [← hk']
          exact fun hx => he hx
        simp [dictAppend, hb, catValues, lookupCat, List.find?_cons, hbk, hkk]
      · have hbk : (e.1 == k') = false := by
          rw [beq_eq_false_iff_ne]
          exact hk'
        have hrec := ih
        simp only [dictAppend, hb, if_false] at *
        simp [catValues, lookupCat, List.find?_cons, hbk] at hrec ⊢
        exact hrec

theorem catValues_categorize_foldl (fps : List String) (d : List (String × List String))
    (k : String) :
    catValues (fps.foldl (fun d fp => dictAppend d (categorizeFile fp) fp) d) k =
      catValues d k ++ fps.filter (fun fp => categorizeFile fp == k) := by
  induction fps generalizing d with
  | nil => simp
  | cons fp rest ih =>
    rw [List.foldl_cons, ih, catValues_dictAppend]
    by_cases hk : k = categorizeFile fp
    · have hb : (categorizeFile fp == k) = true := by simp [hk]
      rw [if_pos hk]
      simp [List.filter_cons, hb, List.append_assoc]
    · have hb : (categorizeFile fp == k) = false := by
        rw [beq_eq_false_iff_ne]
        exact fun hx => hk hx.symm
      rw [if_neg hk]
      simp [List.filter_cons, hb]

theorem categorize_files_values (fps : List String) (k : String) :
    catValues (categorize_files fps) k = fps.filter (fun fp => categorizeFile fp == k) := by
  have h := catValues_categorize_foldl fps [] k
  simpa [categorize_files, catValues, lookupCat] using h

theorem mem_nonCatFiles {d : List (String × List String)} {cat k fp : String}
    {vs : List String}
    (hl : lookupCat d cat = some vs) (hfp : fp ∈ vs) (hne : cat ≠ k) :
    fp ∈ nonCatFiles d k := by
  unfold lookupCat at hl
  obtain ⟨e, hfind, hvs⟩ : ∃ e, List.find? (fun e => e.1 == cat) d = some e ∧ e.2 = vs := by
    cases hf : List.find? (fun e => e.1 == cat) d with
    | none => rw [hf] at hl; exact absurd hl (by simp)
    | some e => rw [hf] at hl; exact ⟨e, rfl, by simpa using hl⟩
  have hmem : e ∈ d := List.mem_of_find?_eq_some hfind
  have he1 : e.1 = cat := by simpa using List.find?_some hfind
  unfold nonCatFiles
  rw [List.mem_flatten]
  refine ⟨e.2, ?_, by rw [hvs]; exact hfp⟩
  refine List.mem_map_of_mem (fun e => e.2) (List.mem_filter.mpr ⟨hmem, ?_⟩)
  rw [he1]
  simp [beq_eq_false_iff_ne, hne]

/-- Claim C8 counterexample: the path "tests/test_build.sh" does NOT match
any pattern of the "build" category (`Makefile`, `Dockerfile`,
`docker-compose`, `package\.json$`, `Cargo\.toml$`), so the claim's premise
that this path matches both a test pattern and a build pattern is false of
the code's pattern tables; it matches a test pattern and is categorized
"test". -/
theorem categorize_build_pattern_counterexample :
    buildMatches (lowerL "tests/test_build.sh") = false ∧
    testMatches (lowerL "tests/test_build.sh") = true ∧
    categorizeFile "tests/test_build.sh" = "test" :=
  ⟨by decide, by decide, by decide⟩

/-- Claim C8 (amended): the categorizer assigns each path to exactly one
category — the bucket for category `k` holds exactly the paths whose first
matching category (in the fixed priority order test, docs, config, ci,
style, build, defaulting to "code") is `k`. The path "tests/test_build.sh"
matches a test pattern but NO build pattern and is categorized "test"; a
path matching both a test and a build pattern, such as "tests/Makefile", is
categorized "test", never "build", because test is checked first. -/
theorem categorize_files_first_match :
    (∀ (fps : List String) (k : String),
        catValues (categorize_files fps) k =
          fps.filter (fun fp => categorizeFile fp == k)) ∧
    categorizeFile "tests/test_build.sh" = "test" ∧
    buildMatches (lowerL "tests/test_build.sh") = false ∧
    testMatches (lowerL "tests/Makefile") = true ∧
    buildMatches (lowerL "tests/Makefile") = true ∧
    categorizeFile "tests/Makefile" = "test" :=
  ⟨categorize_files_values, by decide, by decide, by decide, by decide, by decide⟩

/-! ## Claim theorems: docs scope branch (C3) -/

/-- Claim C3 counterexample: with conventional type "docs" and changed files
["README.md", "src/main.py"] — one categorized "docs", one categorized
"code" — the check emits NO finding, because its guard requires that no
changed file at all falls in the "docs" category, contradicting the claim
that a warn is emitted whenever at least one changed file is categorized
outside "docs" (even when other files do fall in "docs"). -/
theorem docs_scope_counterexample :
    (parse_commit_message "docs: update the guide").type = some "docs" ∧
    categorizeFile "src/main.py" = "code" ∧
    categorizeFile "README.md" = "docs" ∧
    check_scope_mismatch (parse_commit_message "docs: update the guide")
      ⟨[⟨"README.md", 3, 0, false⟩, ⟨"src/main.py", 5, 2, false⟩], 8, 2⟩ = [] :=
  ⟨by decide, by decide, by decide, by decide⟩

/-- Claim C3 (amended): the docs-branch warn fires only when NO changed file
falls in the "docs" category. In that case — conventional type "docs" and at
least one changed file — the check emits the warn built by `docsFinding`,
which lists up to 3 non-doc paths and appends "..." when more than 3 exist.
Conversely, whenever some changed file is categorized "docs" (the category
dict has a "docs" key), or the type is not "docs", the docs branch — the only
branch of `check_scope_mismatch` that builds this warn, as the final
decomposition conjunct records — emits nothing, even if other changed files
are non-doc. -/
theorem docs_scope_warn_amended (p : ParsedMsg) (ds : DiffStats) :
    (p.type = some "docs" →
      lookupCat (categorize_files (ds.files.map (fun f => f.path))) "docs" = none →
      ds.files ≠ [] →
      docsFinding (nonCatFiles (categorize_files (ds.files.map (fun f => f.path))) "docs") ∈
        check_scope_mismatch p ds) ∧
    (lookupCat (categorize_files (ds.files.map (fun f => f.path))) "docs" ≠ none →
      docsBranch p ds = []) ∧
    (p.type ≠ some "docs" → docsBranch p ds = []) ∧
    check_scope_mismatch p ds =
      scopeBranch p ds ++ docsBranch p ds ++ testBranch p ds ++ readmeBranch p ds := by
  refine ⟨?_, ?_, ?_, rfl⟩
  case refine_2 =>
    intro hns
    unfold docsBranch
    dsimp only
    rw [if_neg (fun hcond => hns hcond.2)]
  case refine_3 =>
    intro hnt
    unfold docsBranch
    dsimp only
    rw [if_neg (fun hcond => hnt hcond.1)]
  intro ht hd hne
  have hfps : ds.files.map (fun f => f.path) ≠ [] := by
    intro h0
    exact hne (List.map_eq_nil.mp h0)
  obtain ⟨fp, hfp⟩ : ∃ fp, fp ∈ ds.files.map (fun f => f.path) := by
    cases hle : ds.files.map (fun f => f.path) with
    | nil => exact absurd hle hfps
    | cons a t => exact ⟨a, List.mem_cons_self a t⟩
  have hval : fp ∈ catValues (categorize_files (ds.files.map (fun f => f.path)))
      (categorizeFile fp) := by
    rw [categorize_files_values]
    exact List.mem_filter.mpr ⟨hfp, by simp⟩
  obtain ⟨vs, hl, hv⟩ : ∃ vs,
      lookupCat (categorize_files (ds.files.map (fun f => f.path)))
        (categorizeFile fp) = some vs ∧ fp ∈ vs := by
    cases hlk : lookupCat (categorize_files (ds.files.map (fun f => f.path)))
        (categorizeFile fp) with
    | none =>
      unfold catValues at hval
      rw [hlk] at hval
      exact absurd hval (by simp)
    | some vs =>
      unfold catValues at hval
      rw [hlk] at hval
      exact ⟨vs, rfl, by simpa using hval⟩
  have hcne : categorizeFile fp ≠ "docs" := by
    intro hx
    rw [hx, hd] at hl
    exact absurd hl (by simp)
  have hmem : fp ∈ nonCatFiles (categorize_files (ds.files.map (fun f => f.path))) "docs" :=
    mem_nonCatFiles hl hv hcne
  have hnd : nonCatFiles (categorize_files (ds.files.map (fun f => f.path))) "docs" ≠ [] := by
    intro h0
    rw [h0] at hmem
    exact absurd hmem (by simp)
  have hbranch : docsBranch p ds =
      [docsFinding (nonCatFiles (categorize_files (ds.files.map (fun f => f.path))) "docs")] := by
    unfold docsBranch
    dsimp only
    rw [if_pos ⟨ht, hd⟩, if_pos hnd]
  unfold check_scope_mismatch
  rw [hbranch]
  simp

/-- Witness for amended C3, exercising both directions: four code files and
zero doc files yield the docs warn; a mixed diff with a doc file present
yields a silent docs branch. -/
theorem docs_scope_warn_amended_witness :
    docsFinding (nonCatFiles (categorize_files
      (([⟨"src/a.py", 1, 0, false⟩, ⟨"src/b.py", 1, 0, false⟩,
         ⟨"src/c.py", 1, 0, false⟩, ⟨"src/d.py", 1, 0, false⟩] : List FileChange).map
        (fun f => f.path))) "docs") ∈
      check_scope_mismatch (parse_commit_message "docs: rework pipeline")
        ⟨[⟨"src/a.py", 1, 0, false⟩, ⟨"src/b.py", 1, 0, false⟩,
          ⟨"src/c.py", 1, 0, false⟩, ⟨"src/d.py", 1, 0, false⟩], 4, 0⟩ ∧
    docsBranch (parse_commit_message "docs: polish wording")
      ⟨[⟨"README.md", 2, 1, false⟩, ⟨"src/util.py", 5, 0, false⟩], 7, 1⟩ = [] :=
  ⟨(docs_scope_warn_amended (parse_commit_message "docs: rework pipeline")
      ⟨[⟨"src/a.py", 1, 0, false⟩, ⟨"src/b.py", 1, 0, false⟩,
        ⟨"src/c.py", 1, 0, false⟩, ⟨"src/d.py", 1, 0, false⟩], 4, 0⟩).1
     (by decide) (by decide) (by decide),
   (docs_scope_warn_amended (parse_commit_message "docs: polish wording")
      ⟨[⟨"README.md", 2, 1, false⟩, ⟨"src/util.py", 5, 0, false⟩], 7, 1⟩).2.1
     (by decide)⟩

/-! ## Claim theorems: empty diff (C2) -/

theorem check_size_mismatch_emptyDS (p : ParsedMsg) :
    check_size_mismatch p ⟨[], 0, 0⟩ = [] := by
  unfold check_size_mismatch sizeSmallPart sizeLargePart smallSizeWords
  simp

theorem check_direction_mismatch_emptyDS (p : ParsedMsg) :
    check_direction_mismatch p ⟨[], 0, 0⟩ = [] := by
  unfold check_direction_mismatch
  simp

theorem check_scope_mismatch_emptyDS (p : ParsedMsg) :
    check_scope_mismatch p ⟨[], 0, 0⟩ = [] := by
  unfold check_scope_mismatch scopeBranch docsBranch testBranch readmeBranch
  cases p.scope with
  | none => simp [categorize_files, nonCatFiles, catValues, lookupCat]
  | some sc => simp [categorize_files, nonCatFiles, catValues, lookupCat]

/-- Claim C2 counterexample: a non-merge commit whose message is
"rename files" with an empty diff (and, as git then reports, no renames)
produces TWO findings: the rename-mismatch warn fires in addition to the
empty-diff warn, contradicting "no other check produces any finding". -/
theorem empty_diff_rename_counterexample :
    (audit_commit "HEAD" (some "rename files") none false ⟨[], 0, 0⟩ []).findingsOf =
      [renameMissingFinding, emptyDiffFinding] := by decide

/-- Claim C2 (amended): for every non-merge commit with readable message,
empty FileChange sequence (hence zero totals) and empty rename sequence, the
audit emits the empty-diff warn, preceded by the rename-mismatch "no renames
detected" warn exactly when the description contains "rename" or "move" as a
whole word; no other check fires. -/
theorem empty_diff_findings_amended (ref : String) (mOut sOut : Option String) (ds : DiffStats)
    (h1 : pyStrip ((mOut.getD "").toList) ≠ [])
    (h2 : ds.files = []) (h3 : ds.total_added = 0) (h4 : ds.total_deleted = 0) :
    (audit_commit ref mOut sOut false ds []).findingsOf =
      (if (extract_action_words (parse_commit_message
              ((get_commit_message mOut).getD "")).description).contains "rename" ∨
          (extract_action_words (parse_commit_message
              ((get_commit_message mOut).getD "")).description).contains "move"
       then [renameMissingFinding] else []) ++ [emptyDiffFinding] := by
  obtain ⟨files, ta, td⟩ := ds
  dsimp only at h2 h3 h4
  subst h2
  subst h3
  subst h4
  cases mOut with
  | none => exact absurd rfl h1
  | some s =>
    by_cases hs : s = ""
    · subst hs
      exact absurd rfl h1
    · have hm : ¬(String.mk (pyStrip s.toList) = "") := by
        intro he
        exact h1 (by simpa using String_mk_eq_empty he)
      unfold audit_commit get_commit_message
      dsimp only
      rw [if_neg hs]
      dsimp only
      rw [if_neg hm, if_neg Bool.false_ne_true]
      dsimp only [AuditOutcome.findingsOf]
      rw [check_size_mismatch_emptyDS, check_direction_mismatch_emptyDS,
        check_scope_mismatch_emptyDS]
      unfold check_rename_mismatch renameMissingPart renameUnmentionedPart check_empty_diff
      simp

/-- Witness for amended C2: message "please move the assets", empty diff. -/
theorem empty_diff_findings_amended_witness :
    pyStrip (((some "please move the assets").getD "").toList) ≠ [] ∧
    (audit_commit "HEAD" (some "please move the assets") none false ⟨[], 0, 0⟩ []).findingsOf =
      (if (extract_action_words (parse_commit_message
              ((get_commit_message (some "please move the assets")).getD
                "")).description).contains "rename" ∨
          (extract_action_words (parse_commit_message
              ((get_commit_message (some "please move the assets")).getD
                "")).description).contains "move"
       then [renameMissingFinding] else []) ++ [emptyDiffFinding] :=
  ⟨by decide,
   empty_diff_findings_amended "HEAD" (some "please move the assets") none ⟨[], 0, 0⟩
     (by decide) rfl rfl rfl⟩

end Diffmatch
